import Mathlib

/-!
# Verification of the vintrace-sdk request-execution core

A shallow embedding of the request-execution core of the vintrace TypeScript
SDK, together with proofs about its behaviour:

* `src/http/fetch.ts` — `vintraceFetch` (URL/query construction, retry loop,
  status classification) and `getRetryAfterFromHeaders`;
* `src/client/errors.ts` — the `VintraceError` hierarchy, modelled as records
  tagged with the class `name`, and `isRetryableStatus`;
* `src/http/pagination.ts` — `paginate` (lazy async generator) and `batchGet`;
* `src/client/utils.ts` — `batchFetch`;
* `src/client/VintraceClient.ts` — `VintraceClient.request` option forwarding
  and the eager `getAll` aggregation pattern (`WorkOrdersClient.getAll`).

JavaScript numbers are modelled with `Nat`/`Int` (all quantities involved are
integers in the source), `undefined`/absent values with `Option`, and the
`Promise.allSettled` outcome of one fetch with an explicit sum of
"fulfilled with a result tuple" and "rejected".  `correlationId` and the
captured response `body` carried on errors play no role in any claim and are
not modelled.
-/

namespace Vintrace

/-- JavaScript values appearing as query-parameter entries.  Only the shapes
that can occur for the SDK's parameter objects are modelled: strings, integer
numbers, booleans, `null` and `undefined`. -/
inductive JsValue where
  | str (s : String)
  | num (n : Int)
  | bool (b : Bool)
  | null
  | undefined
  deriving DecidableEq, Repr

/-- JavaScript `String(value)` coercion for the modelled values (only reached
for non-null, non-undefined values in `vintraceFetch`, but total here). -/
def jsString : JsValue → String
  | .str s => s
  | .num n => toString n
  | .bool b => if b then "true" else "false"
  | .null => "null"
  | .undefined => "undefined"

/-- `URLSearchParams.set` on an association list: if the key is already
present, overwrite the first occurrence and delete the rest; otherwise append.
(`vintraceFetch` only calls this over `Object.entries` of one object, so the
keys fed to it are pairwise distinct and the overwrite branch is idle.) -/
def setParam (l : List (String × String)) (k v : String) : List (String × String) :=
  match l with
  | [] => [(k, v)]
  | p :: rest =>
    if p.1 = k then (k, v) :: rest.filter (fun q => q.1 ≠ k)
    else p :: setParam rest k v

/-- The query-parameter list built by `vintraceFetch` for a GET/DELETE body
object (fetch.ts lines 64–73): iterate the entries in order and `set` every
entry whose value is neither `undefined` nor `null`, coercing the value with
`String(·)`. -/
def buildQueryParams (entries : List (String × JsValue)) : List (String × String) :=
  entries.foldl
    (fun acc e =>
      if e.2 ≠ JsValue.undefined ∧ e.2 ≠ JsValue.null then setParam acc e.1 (jsString e.2)
      else acc)
    []

/-- The five HTTP verbs accepted by `vintraceFetch`. -/
inductive HttpMethod where
  | GET | POST | PUT | PATCH | DELETE
  deriving DecidableEq, Repr

/-- `isBodylessMethod` (fetch.ts line 60): `method === 'GET' || method === 'DELETE'`. -/
def isBodylessMethod (m : HttpMethod) : Bool :=
  m == .GET || m == .DELETE

/-- The query parameters a request carries (fetch.ts lines 64–73): built from
the parameter object only for GET/DELETE with an object body; all other
requests carry none (their body is JSON-serialized instead). -/
def requestQueryParams (m : HttpMethod) (body : Option (List (String × JsValue))) :
    List (String × String) :=
  if isBodylessMethod m then
    match body with
    | some entries => buildQueryParams entries
    | none => []
  else []

/-! ## Error taxonomy (`src/client/errors.ts`)

Every error class is modelled as a record tagged with its runtime `name`
(the `instanceof` checks in `vintraceFetch` are faithfully replayed as
comparisons on this tag, which the constructors set injectively).
`correlationId` and `body` are not modelled (no claim mentions them). -/

/-- A `VintraceError` (or subclass) instance: class `name`, `message`,
`status`, and — meaningful only for `VintraceRateLimitError` — the optional
`retryAfter` field. -/
structure VError where
  name : String
  message : String
  status : Nat
  retryAfter : Option Int := none
  deriving DecidableEq, Repr

/-- `isRetryableStatus` (errors.ts): `[408, 429, 500, 502, 503, 504].includes(status)`. -/
def isRetryableStatus (status : Nat) : Bool :=
  ([408, 429, 500, 502, 503, 504] : List Nat).contains status

/-- The three-state result tuple `VintraceResult<T>` (`src/types/result.ts`):
`[data, null]`, `[null, error]` or `[null, null]`. -/
inductive VResult (α : Type) where
  | ok (data : α)
  | err (e : VError)
  | empty
  deriving DecidableEq, Repr

/-! ## `vintraceFetch` (`src/http/fetch.ts`) -/

/-- JavaScript `parseInt(s, 10)`: skip leading whitespace, read an optional
sign, then the longest digit prefix; `NaN` (here `none`) when no digit. -/
def jsParseInt (s : String) : Option Int :=
  let t := s.toList.dropWhile (fun c => c = ' ' ∨ c = '\t' ∨ c = '\n' ∨ c = '\r')
  let signAndRest : Int × List Char :=
    match t with
    | '-' :: cs => (-1, cs)
    | '+' :: cs => (1, cs)
    | cs => (1, cs)
  let digits := signAndRest.2.takeWhile Char.isDigit
  if digits.isEmpty then none
  else some (signAndRest.1 * (digits.foldl (fun n c => n * 10 + (c.toNat - '0'.toNat)) 0 : Nat))

/-- `getRetryAfterFromHeaders` (fetch.ts lines 32–39): read the `retry-after`
header (`none` = absent); an empty string is falsy and yields `undefined`,
otherwise `parseInt(·, 10)` with `NaN` mapped to `undefined`. -/
def getRetryAfterFromHeaders (retryAfterHeader : Option String) : Option Int :=
  match retryAfterHeader with
  | none => none
  | some s => if s = "" then none else jsParseInt s

/-- The status-classification chain of `vintraceFetch` (fetch.ts lines
127–167), evaluated for non-ok responses: 401, 404, 429 (carrying the parsed
`retry-after`), other 4xx, 5xx, then the generic fallback. -/
def classifyStatus (status : Nat) (retryAfter : Option Int) : VError :=
  if status = 401 then ⟨"VintraceAuthenticationError", "Authentication failed", 401, none⟩
  else if status = 404 then ⟨"VintraceNotFoundError", "Resource not found", 404, none⟩
  else if status = 429 then ⟨"VintraceRateLimitError", "Rate limit exceeded", 429, retryAfter⟩
  else if 400 ≤ status ∧ status < 500 then
    ⟨"VintraceValidationError", "Request validation failed", status, none⟩
  else if 500 ≤ status then ⟨"VintraceServerError", "Server error", status, none⟩
  else ⟨"VintraceError", "Request failed with status " ++ toString status, status, none⟩

/-- What one physical attempt of the injected HTTP primitive does: resolve
with a response (status, raw `retry-after` header, parsed JSON data used on
the 2xx path), reject with an `AbortError` (the per-attempt timeout), or
reject with some other error. -/
inductive AttemptOutcome (α : Type) where
  | response (status : Nat) (retryAfterHeader : Option String) (data : α)
  | abortError
  | otherError (message : String)

/-- `RequestOptions` of fetch.ts.  Schemas are modelled by their single
`parse` operation (`Except`: validated value or the joined issue message);
`β` is the request-body type, `α` the response type. -/
structure RequestOptions (β α : Type) where
  timeout : Option Nat := none
  maxRetries : Option Nat := none
  validateResponse : Option Bool := none
  validateRequest : Option Bool := none
  responseSchema : Option (α → Except String α) := none
  requestSchema : Option (β → Except String β) := none

/-- `DEFAULT_OPTIONS` (`src/client/config.ts`), after `Required<...>` merge. -/
structure ClientOptions where
  timeout : Nat := 30000
  maxRetries : Nat := 3
  parallelLimit : Nat := 5
  validateRequests : Bool := true
  validateResponses : Bool := true

/-- `DEFAULT_OPTIONS` of config.ts: `{timeout: 30000, maxRetries: 3,
parallelLimit: 5, validateRequests: true, validateResponses: true}`. -/
def DEFAULT_OPTIONS : ClientOptions := {}

/-- Observable outcome of the retry loop: the returned result, the number of
fetch invocations performed, the values passed to `setTimeout` between
attempts (milliseconds — the unit `setTimeout` uses, and the unit of the
exponential default `Math.pow(2, attempt) * 1000`), and whether the
response-validation adapter ran. -/
structure LoopOut (α : Type) where
  result : VResult α
  attempts : Nat
  delays : List Int
  respValidated : Bool
  deriving DecidableEq, Repr

/-- The retry loop of `vintraceFetch` (fetch.ts lines 95–228).  `fuel` is the
number of remaining loop iterations (`maxRetries + 1 - attempt`; the loop
condition `attempt <= maxRetries` exits exactly when it reaches 0, landing on
the unreachable `Max retries exceeded` return of line 228).  A response is
`ok` iff its status lies in 200–299 (the Fetch standard's definition, used by
`response.ok`); all `continue` branches are guarded by `attempt < maxRetries`
exactly as in the source. -/
def fetchGo (env : Nat → AttemptOutcome α) (maxRetries : Nat) (vResp : Bool)
    (schema : Option (α → Except String α)) : Nat → Nat → LoopOut α
  | _, 0 => ⟨.err ⟨"VintraceError", "Max retries exceeded", 0, none⟩, 0, [], false⟩
  | attempt, fuel + 1 =>
    match env attempt with
    | .response st hdr data =>
      if 200 ≤ st ∧ st ≤ 299 then
        if st = 204 then ⟨.empty, 1, [], false⟩
        else
          match vResp, schema with
          | true, some sch =>
            match sch data with
            | .ok d => ⟨.ok d, 1, [], true⟩
            | .error msg => ⟨.err ⟨"VintraceValidationSchemaError", msg, 422, none⟩, 1, [], true⟩
          | _, _ => ⟨.ok data, 1, [], false⟩
      else
        let e := classifyStatus st (getRetryAfterFromHeaders hdr)
        if e.name = "VintraceRateLimitError" ∧ attempt < maxRetries then
          let rest := fetchGo env maxRetries vResp schema (attempt + 1) fuel
          ⟨rest.result, rest.attempts + 1,
            (e.retryAfter.getD ((2 : Int) ^ attempt * 1000)) :: rest.delays, rest.respValidated⟩
        else if e.name = "VintraceAuthenticationError" then ⟨.err e, 1, [], false⟩
        else if isRetryableStatus e.status ∧ attempt < maxRetries then
          let rest := fetchGo env maxRetries vResp schema (attempt + 1) fuel
          ⟨rest.result, rest.attempts + 1, ((2 : Int) ^ attempt * 1000) :: rest.delays,
            rest.respValidated⟩
        else ⟨.err e, 1, [], false⟩
    | .abortError =>
      if attempt < maxRetries then
        let rest := fetchGo env maxRetries vResp schema (attempt + 1) fuel
        ⟨rest.result, rest.attempts + 1, ((2 : Int) ^ attempt * 1000) :: rest.delays,
          rest.respValidated⟩
      else ⟨.err ⟨"VintraceError", "Request timeout", 408, none⟩, 1, [], false⟩
    | .otherError msg => ⟨.err ⟨"VintraceFetchError", msg, 0, none⟩, 1, [], false⟩

/-- Full observable outcome of one `vintraceFetch` call: the loop outcome
plus whether the request-validation adapter ran before the network. -/
structure FetchOut (α : Type) where
  result : VResult α
  attempts : Nat
  delays : List Int
  reqValidated : Bool
  respValidated : Bool
  deriving DecidableEq, Repr

/-- `vintraceFetch` (fetch.ts lines 48–242): apply the `maxRetries` default,
run pre-flight request validation when `validateRequest` is truthy and a
request schema and a body are present (returning the schema error with no
network call on failure), then run the retry loop.  The network environment
`env` gives the outcome of each physical attempt. -/
def vintraceFetch (env : Nat → AttemptOutcome α) (opts : RequestOptions β α)
    (body : Option β) : FetchOut α :=
  let maxRetries := opts.maxRetries.getD DEFAULT_OPTIONS.maxRetries
  let runLoop := fun (reqV : Bool) =>
    let lo := fetchGo env maxRetries (opts.validateResponse == some true) opts.responseSchema 0
      (maxRetries + 1)
    FetchOut.mk lo.result lo.attempts lo.delays reqV lo.respValidated
  if opts.validateRequest == some true then
    match opts.requestSchema, body with
    | some sch, some b =>
      match sch b with
      | .error msg => ⟨.err ⟨"VintraceValidationSchemaError", msg, 422, none⟩, 0, [], true, false⟩
      | .ok _ => runLoop true
    | _, _ => runLoop false
  else runLoop false

/-- The pre-flight request validation of fetch.ts lines 82–92 rejects the
call (no network attempt happens).  A `vintraceFetch` execution "receives an
HTTP response" only when this is `false`. -/
def preflightRejects (opts : RequestOptions β α) (body : Option β) : Bool :=
  opts.validateRequest == some true &&
    match opts.requestSchema, body with
    | some sch, some b => match sch b with | .error _ => true | .ok _ => false
    | _, _ => false

/-! ## Pagination (`src/http/pagination.ts`) -/

/-- `PaginatedResponse<T>` as consumed by `paginate`: the generator reads
only `results` and `next`; the remaining fields are carried along. -/
structure PaginatedResponse (α : Type) where
  totalResults : Nat
  offset : Nat
  limit : Nat
  first : Option String := none
  previous : Option String := none
  next : Option String := none
  last : Option String := none
  results : List α
  deriving DecidableEq, Repr

/-- What an async generator does, as observed by a consumer driving it to
completion: either it finishes normally after yielding `yielded`, or it
yields `yielded` and then raises `thrown` to the consumer. -/
inductive GenOutcome (α : Type) where
  | done (yielded : List α)
  | thrown (yielded : List α) (e : VError)
  deriving DecidableEq, Repr

/-- The `paginate` async generator (pagination.ts lines 20–46), run for at
most `fuel` page fetches (the source loop is unbounded while the server keeps
reporting a `next` link; every claim concerns finitely many pages, and `none`
is returned only when `fuel` runs out before the loop does).  Per iteration:
fetch `(offset, limit)`; **an error result is thrown to the consumer**; a
`[null, null]` result breaks; otherwise all `results` are yielded,
`offset += limit`, and the loop continues iff `next` is non-null. -/
def paginateGo (fetchFn : Nat → Nat → VResult (PaginatedResponse α)) (limit : Nat) :
    Nat → Nat → List α → Option (GenOutcome α)
  | _, 0, _ => none
  | offset, fuel + 1, yielded =>
    match fetchFn offset limit with
    | .err e => some (.thrown yielded e)
    | .empty => some (.done yielded)
    | .ok response =>
      if response.next ≠ none then
        paginateGo fetchFn limit (offset + limit) fuel (yielded ++ response.results)
      else some (.done (yielded ++ response.results))

/-- `paginate` with its defaults: `limit` from the options (default 100),
starting at offset 0. -/
def paginate (fetchFn : Nat → Nat → VResult (PaginatedResponse α)) (limit : Option Nat)
    (fuel : Nat) : Option (GenOutcome α) :=
  paginateGo fetchFn (limit.getD 100) 0 fuel []

/-! ## Batch fetching (`src/http/pagination.ts` `batchGet`,
`src/client/utils.ts` `batchFetch`) -/

/-- One element of a `Promise.allSettled` outcome: the fetch promise either
fulfilled with a result tuple, or rejected (`message` = `reason?.message`,
absent when the rejection reason has no message). -/
inductive SettledResult (α : Type) where
  | fulfilled (value : VResult α)
  | rejected (message : Option String)
  deriving DecidableEq, Repr

/-- The shared per-result bookkeeping of `batchGet` and `batchFetch`: an
error is pushed to the error list; otherwise non-null data is pushed to the
output list; a `[null, null]` tuple is pushed to neither; a rejection is
converted to a generic `VintraceError(message ?? 'Unknown error', 0)`. -/
def settleStep (acc : List α × List VError) (r : SettledResult α) : List α × List VError :=
  match r with
  | .fulfilled (.ok d) => (acc.1 ++ [d], acc.2)
  | .fulfilled (.err e) => (acc.1, acc.2 ++ [e])
  | .fulfilled .empty => acc
  | .rejected msg => (acc.1, acc.2 ++ [⟨"VintraceError", msg.getD "Unknown error", 0, none⟩])

/-- Specification-side projection: the data items a settled fetch list
contributes (`[data, null]` tuples only, in order). -/
def settledData (rs : List (SettledResult α)) : List α :=
  rs.filterMap (fun r =>
    match r with
    | .fulfilled (.ok d) => some d
    | _ => none)

/-- Specification-side projection: the errors a settled fetch list
contributes (`[null, error]` tuples and the generic conversion of
rejections, in order). -/
def settledErrors (rs : List (SettledResult α)) : List VError :=
  rs.filterMap (fun r =>
    match r with
    | .fulfilled (.err e) => some e
    | .rejected msg => some ⟨"VintraceError", msg.getD "Unknown error", 0, none⟩
    | _ => none)

/-- `VintraceAggregateError` construction (errors.ts lines 93–110): message
from the children, status/`retryAfter` mirroring of the first child is
reflected in the `status` field (`errors[0]?.status ?? 0`). -/
structure AggregateError where
  name : String
  message : String
  status : Nat
  errors : List VError
  deriving DecidableEq, Repr

/-- Build a `VintraceAggregateError` from a child list, as the constructor
does. -/
def mkAggregateError (errors : List VError) : AggregateError :=
  { name := "VintraceAggregateError"
    message :=
      if errors.length = 1 then ((errors.head?.map VError.message).getD "")
      else toString errors.length ++ " errors occurred: " ++
        String.intercalate "; " (errors.map VError.message)
    status := ((errors.head?.map VError.status).getD 0)
    errors := errors }

/-- Return shape of the batch combinators: `[T[], null]` on full success or
`[null, VintraceAggregateError]` when the error list is non-empty. -/
inductive BatchOut (α : Type) where
  | ok (items : List α)
  | aggregate (e : AggregateError)
  deriving DecidableEq, Repr

/-- Structural worker for `chunkList`: `fuel` bounds the number of loop
iterations (the caller passes the list length, which suffices since every
iteration with `0 < c` drops at least one element). -/
def chunkListGo (c : Nat) : Nat → List ι → List (List ι)
  | _, [] => []
  | 0, _ :: _ => []
  | fuel + 1, l@(_ :: _) => l.take c :: chunkListGo c fuel (l.drop c)

/-- Consecutive chunks of size `c` — the slices `ids.slice(i, i + c)` taken
by the `for (let i = 0; i < ids.length; i += c)` loop of `batchGet`.  (For
`c = 0` the JavaScript loop never terminates; the model returns `[]` there
and every theorem assumes `0 < c`.) -/
def chunkList (c : Nat) (l : List ι) : List (List ι) :=
  if c = 0 then [] else chunkListGo c l.length l

/-- `batchGet` (pagination.ts lines 48–80): chunk the ids by `concurrency`
(default 5), settle each chunk's fetches in order, accumulate outputs and
errors across chunks, then return the aggregate error or the output list. -/
def batchGet (ids : List ι) (fetchFn : ι → SettledResult α) (concurrency : Option Nat) :
    BatchOut α :=
  let c := concurrency.getD 5
  let acc := (chunkList c ids).foldl
    (fun acc chunk => (chunk.map fetchFn).foldl settleStep acc) ([], [])
  if acc.2.length > 0 then .aggregate (mkAggregateError acc.2) else .ok acc.1

/-- `batchFetch` (utils.ts lines 8–34): one `Promise.allSettled` over
**all** ids at once (no chunking), then the same aggregation. -/
def batchFetch (ids : List ι) (fetchFn : ι → SettledResult α) : BatchOut α :=
  let acc := (ids.map fetchFn).foldl settleStep ([], [])
  if acc.2.length > 0 then .aggregate (mkAggregateError acc.2) else .ok acc.1

/-- The waves of concurrently-issued fetches of `batchFetch` (utils.ts line
12): a single `Promise.allSettled(ids.map(fetchFn))`, i.e. one wave holding
every key. -/
def batchFetchWaves (ids : List ι) : List (List ι) := [ids]

/-- The waves of concurrently-issued fetches of `batchGet`: one
`Promise.allSettled` per chunk, chunks processed sequentially. -/
def batchGetWaves (ids : List ι) (concurrency : Option Nat) : List (List ι) :=
  chunkList (concurrency.getD 5) ids

/-! ## `VintraceClient.request` and the eager `getAll` aggregation
(`src/client/VintraceClient.ts`) -/

/-- The options object literal built inside `VintraceClient.request`
(VintraceClient.ts lines 220–225): per-call values defaulted from the client
options.  It has **no** `requestSchema`/`responseSchema` properties. -/
def forwardOptions (c : ClientOptions) (o : RequestOptions β α) : RequestOptions β α :=
  { timeout := some (o.timeout.getD c.timeout)
    maxRetries := some (o.maxRetries.getD c.maxRetries)
    validateRequest := some (o.validateRequest.getD c.validateRequests)
    validateResponse := some (o.validateResponse.getD c.validateResponses)
    requestSchema := none
    responseSchema := none }

/-- `VintraceClient.request` (VintraceClient.ts lines 208–228): delegate to
`vintraceFetch` with the forwarded options. -/
def clientRequest (c : ClientOptions) (o : RequestOptions β α)
    (env : Nat → AttemptOutcome α) (body : Option β) : FetchOut α :=
  vintraceFetch env (forwardOptions c o) body

/-- The response shape consumed by `WorkOrdersClient.getAll`
(`WorkOrderSearchResponse`): an optional `totalResultCount` and an optional
item array (named `workOrders` there; `salesOrders`/`refunds`/... in the
structurally identical sibling clients). -/
structure SearchPage (α : Type) where
  totalResultCount : Option Nat
  items : Option (List α)
  deriving DecidableEq, Repr

/-- Outcome of one eager `getAll` aggregation: the returned result and the
number of network calls issued. -/
structure PagedOut (α : Type) where
  result : VResult (List α)
  calls : Nat
  deriving DecidableEq, Repr

/-- Scan one batch of settled page results in order (VintraceClient.ts lines
391–398): the first page error returns it; otherwise each page's items (when
the array is present on a non-null page) are appended. -/
def processBatch : List (VResult (SearchPage α)) → List α → Except VError (List α)
  | [], acc => .ok acc
  | r :: rest, acc =>
    match r with
    | .err e => .error e
    | .ok page => processBatch rest (acc ++ (page.items.getD []))
    | .empty => processBatch rest acc

/-- The parallel fan-out loop of `WorkOrdersClient.getAll`
(VintraceClient.ts lines 374–399): `for (let i = 1; i < pagesNeeded; i += p)`
issue the batch of pages `i, …, i + batchSize - 1` (offsets `(i+j)*limit`)
concurrently, then scan it.  `pageAt` maps an offset to the result of the
page request at that offset.  `fuel` bounds the number of loop iterations;
the caller passes `pagesNeeded`, which suffices since `i` advances by
`p ≥ 1` per iteration.  (For `p = 0` the JavaScript loop never terminates;
the theorems assume `0 < p`.) -/
def getAllLoop (pageAt : Nat → VResult (SearchPage α)) (limit pagesNeeded p : Nat) :
    Nat → Nat → List α → Nat → PagedOut α
  | 0, _, acc, calls => ⟨.ok acc, calls⟩
  | fuel + 1, i, acc, calls =>
    if i < pagesNeeded ∧ 0 < p then
      let batchSize := min p (pagesNeeded - i)
      let batch := (List.range batchSize).map (fun j => pageAt ((i + j) * limit))
      match processBatch batch acc with
      | .error e => ⟨.err e, calls + batchSize⟩
      | .ok acc' => getAllLoop pageAt limit pagesNeeded p fuel (i + p) acc' (calls + batchSize)
    else ⟨.ok acc, calls⟩

/-- `WorkOrdersClient.getAll` (VintraceClient.ts lines 336–402), starting
from the page-fetch environment: fetch offset 0; an error propagates; a null
response returns `[[], null]`; `totalCount := totalResultCount ??
items?.length ?? 0`; if `totalCount <= limit` the first page's items are
returned after 1 call; otherwise `pagesNeeded = ceil(totalCount / limit)`
pages are fan-out fetched.  The structurally identical `getAll`/`search`
methods of the other resource clients follow the same code. -/
def getAll (pageAt : Nat → VResult (SearchPage α)) (limit p : Nat) : PagedOut α :=
  match pageAt 0 with
  | .err e => ⟨.err e, 1⟩
  | .empty => ⟨.ok [], 1⟩
  | .ok response =>
    let totalCount := response.totalResultCount.getD ((response.items.map List.length).getD 0)
    if totalCount ≤ limit then ⟨.ok (response.items.getD []), 1⟩
    else
      let pagesNeeded := (totalCount + limit - 1) / limit
      getAllLoop pageAt limit pagesNeeded p pagesNeeded 1 (response.items.getD []) 1

/-! ## Theorems -/

/-- `URLSearchParams.set` with a fresh key appends the pair. -/
lemma setParam_of_not_mem (l : List (String × String)) (k v : String)
    (h : k ∉ l.map Prod.fst) : setParam l k v = l ++ [(k, v)] := by
  induction l with
  | nil => rfl
  | cons p rest ih =>
    simp only [List.map_cons, List.mem_cons] at h
    push_neg at h
    rw [setParam, if_neg (fun he => h.1 he.symm), ih h.2]
    simp

/-- The query-building fold, run from any accumulator whose keys are
disjoint from the distinct entry keys, appends exactly the serialized
non-null, non-undefined entries. -/
lemma buildQueryParams_foldl (entries : List (String × JsValue))
    (acc : List (String × String))
    (hnd : (entries.map Prod.fst).Nodup)
    (hdisj : ∀ k ∈ entries.map Prod.fst, k ∉ acc.map Prod.fst) :
    entries.foldl
      (fun acc e =>
        if e.2 ≠ JsValue.undefined ∧ e.2 ≠ JsValue.null then setParam acc e.1 (jsString e.2)
        else acc)
      acc =
    acc ++ (entries.filter (fun e => e.2 ≠ JsValue.undefined ∧ e.2 ≠ JsValue.null)).map
      (fun e => (e.1, jsString e.2)) := by
  induction entries generalizing acc with
  | nil => simp
  | cons e rest ih =>
    simp only [List.map_cons, List.nodup_cons] at hnd
    simp only [List.foldl_cons, List.filter_cons]
    have hmem : ∀ k ∈ List.map Prod.fst rest, k ∈ List.map Prod.fst (e :: rest) := by
      intro k hk
      simp only [List.map_cons, List.mem_cons]
      exact Or.inr hk
    by_cases hkeep : e.2 ≠ JsValue.undefined ∧ e.2 ≠ JsValue.null
    · rw [if_pos hkeep,
        setParam_of_not_mem _ _ _ (hdisj e.1 (by simp))]
      rw [ih _ hnd.2 ?disj]
      · simp [hkeep]
      case disj =>
        intro k hk
        simp only [List.map_append, List.mem_append]
        push_neg
        refine ⟨hdisj k (hmem k hk), ?_⟩
        simp only [List.map_cons, List.map_nil, List.mem_singleton]
        intro he
        exact hnd.1 (he ▸ hk)
    · rw [if_neg hkeep, ih _ hnd.2 (fun k hk => hdisj k (hmem k hk))]
      simp [hkeep]

/-- C9: for every GET or DELETE request whose parameter object has (as
`Object.entries` guarantees) pairwise-distinct keys, the query parameters
serialized onto the URL are exactly the entries whose values are neither
`null` nor `undefined`, in entry order, with values coerced by `String(·)`;
entries with `null`/`undefined` values are omitted. -/
theorem query_params_serialize_non_null_entries (m : HttpMethod)
    (entries : List (String × JsValue))
    (hm : m = HttpMethod.GET ∨ m = HttpMethod.DELETE)
    (hnd : (entries.map Prod.fst).Nodup) :
    requestQueryParams m (some entries) =
      (entries.filter (fun e => e.2 ≠ JsValue.undefined ∧ e.2 ≠ JsValue.null)).map
        (fun e => (e.1, jsString e.2)) := by
  have hb : isBodylessMethod m = true := by rcases hm with rfl | rfl <;> rfl
  rw [requestQueryParams, if_pos hb]
  exact buildQueryParams_foldl entries [] hnd (by simp)

/-- C9 witness: the spec's example object `{a: 1, b: 'x', c: null, d:
undefined}` serializes to keys `a` and `b` only. -/
theorem query_params_serialize_non_null_entries_witness :
    requestQueryParams HttpMethod.GET
      (some [("a", .num 1), ("b", .str "x"), ("c", .null), ("d", .undefined)]) =
      [("a", "1"), ("b", "x")] := by
  have h := query_params_serialize_non_null_entries HttpMethod.GET
    [("a", .num 1), ("b", .str "x"), ("c", .null), ("d", .undefined)]
    (Or.inl rfl) (by decide)
  exact h.trans (by decide)

/-- C3: evaluation of the code at the claim's scenario.  With
`maxRetries = 1`, a 429 first response carrying `retry-after: 5` and a
successful second response, the single wait passed to the timer is the raw
parsed header value `5` — i.e. 5 *milliseconds*, since the timer and the
exponential default (`2^attempt * 1000`) are in milliseconds — not the
`5 * 1000` ms that "N seconds" requires. -/
theorem retry_after_delay_is_raw_header_value :
    (vintraceFetch
        (fun i => if i = 0 then AttemptOutcome.response 429 (some "5") ()
          else AttemptOutcome.response 200 none ())
        ({ maxRetries := some 1 } : RequestOptions Unit Unit) none).delays = [5] ∧
      (5 : Int) ≠ 5 * 1000 := by
  decide

/-- C8 counterexample: a 429 response with no `retry-after` header and an
exhausted budget returns a `VintraceRateLimitError` whose `retryAfter` field
is **absent** — no delay is derived at construction time. -/
theorem rate_limit_error_can_lack_retry_after :
    (vintraceFetch (fun _ => AttemptOutcome.response 429 none ())
        ({ maxRetries := some 0 } : RequestOptions Unit Unit) none).result =
      .err ⟨"VintraceRateLimitError", "Rate limit exceeded", 429, none⟩ := by
  decide

/-- C4 counterexample: driving the `paginate` generator with a page-fetch
function whose first page is an error result makes the generator **throw**
the error to the consumer (a `GenOutcome.thrown` observation) instead of
resolving to a result value. -/
theorem paginate_throws_on_page_error :
    paginate
        (fun _ _ =>
          (.err ⟨"VintraceNotFoundError", "Resource not found", 404, none⟩ :
            VResult (PaginatedResponse Unit)))
        none 1 =
      some (.thrown [] ⟨"VintraceNotFoundError", "Resource not found", 404, none⟩) := by
  rfl

/-- C4 (amended): the lazy pagination stream does throw across its public
boundary — whenever the first page fetch returns an error result, the
generator yields nothing and raises exactly that error to the consumer. -/
theorem paginate_raises_first_page_error (fetchFn : Nat → Nat → VResult (PaginatedResponse α))
    (limit : Option Nat) (fuel : Nat) (e : VError)
    (h : fetchFn 0 (limit.getD 100) = .err e) :
    paginate fetchFn limit (fuel + 1) = some (.thrown [] e) := by
  simp [paginate, paginateGo, h]

/-- C4 witness: the amended statement at a concrete erroring page fetch. -/
theorem paginate_raises_first_page_error_witness :
    paginate
        (fun _ _ =>
          (.err ⟨"VintraceServerError", "Server error", 500, none⟩ :
            VResult (PaginatedResponse Unit)))
        (some 10) 3 =
      some (.thrown [] ⟨"VintraceServerError", "Server error", 500, none⟩) :=
  paginate_raises_first_page_error _ (some 10) 2 _ rfl

/-- C7 counterexample: `batchFetch` (utils.ts) issues one single concurrent
wave containing all keys — with 7 keys the wave sizes are `[7]`, not the two
sequential waves `[5, 2]` the claim asserts for the batch-fetch combinator. -/
theorem batchFetch_single_wave_of_seven :
    (batchFetchWaves ["k1", "k2", "k3", "k4", "k5", "k6", "k7"]).map List.length = [7] ∧
      ([7] : List Nat) ≠ [5, 2] := by
  decide

/-- The chunking worker tiles the input list exactly when the fuel covers
the list length and the chunk size is positive. -/
lemma chunkListGo_flatten (c : Nat) (hc : 0 < c) :
    ∀ (fuel : Nat) (l : List ι), l.length ≤ fuel → (chunkListGo c fuel l).flatten = l := by
  intro fuel
  induction fuel with
  | zero =>
    intro l hl
    rw [List.eq_nil_of_length_eq_zero (Nat.le_zero.mp hl)]
    rfl
  | succ n ih =>
    intro l hl
    cases l with
    | nil => rfl
    | cons a l' =>
      rw [chunkListGo, List.flatten_cons, ih _ ?_, List.take_append_drop]
      simp only [List.length_drop, List.length_cons] at *
      omega

/-- Chunking by a positive size tiles the input list exactly. -/
lemma chunkList_join (c : Nat) (hc : 0 < c) (l : List ι) : (chunkList c l).flatten = l := by
  rw [chunkList, if_neg hc.ne']
  exact chunkListGo_flatten c hc l.length l le_rfl

/-- Every chunk produced by positive-size chunking has at most that size. -/
lemma chunkList_length_le (c : Nat) (l : List ι) : ∀ w ∈ chunkList c l, w.length ≤ c := by
  rw [chunkList]
  split
  · intro w hw; simp at hw
  suffices H : ∀ (fuel : Nat) (l : List ι), ∀ w ∈ chunkListGo c fuel l, w.length ≤ c from
    H l.length l
  intro fuel
  induction fuel with
  | zero =>
    intro l w hw
    cases l <;> simp [chunkListGo] at hw
  | succ n ih =>
    intro l w hw
    cases l with
    | nil => simp [chunkListGo] at hw
    | cons a l' =>
      rw [chunkListGo] at hw
      rcases List.mem_cons.mp hw with rfl | hw'
      · simpa using Nat.min_le_left _ _
      · exact ih _ w hw'

/-- C7 (amended): `batchGet` partitions the keys into consecutive chunks of
size `concurrency` (default 5) processed sequentially — 7 keys give two
waves of sizes 5 and 2 — while `batchFetch` issues every fetch in one single
concurrent wave. -/
theorem batch_wave_structure :
    ((batchGetWaves ["k1", "k2", "k3", "k4", "k5", "k6", "k7"] none).map List.length = [5, 2]) ∧
      (∀ (c : Nat) (ids : List String), 0 < c →
        (chunkList c ids).flatten = ids ∧ ∀ w ∈ chunkList c ids, w.length ≤ c) ∧
      (∀ ids : List String, batchFetchWaves ids = [ids]) :=
  ⟨by decide,
    fun c ids hc => ⟨chunkList_join c hc ids, chunkList_length_le c ids⟩,
    fun _ => rfl⟩

/-- C7 witness: the amended statement applied at a concrete chunking. -/
theorem batch_wave_structure_witness :
    (chunkList 2 ["a", "b", "c"]).flatten = ["a", "b", "c"] :=
  (batch_wave_structure.2.1 2 ["a", "b", "c"] (by decide)).1

/-- When pre-flight request validation does not reject, `vintraceFetch` is
the retry loop (for some value of the request-validation flag). -/
lemma vintraceFetch_eq_go (env : Nat → AttemptOutcome α) (opts : RequestOptions β α)
    (body : Option β) (hpre : preflightRejects opts body = false) :
    ∃ rv, vintraceFetch env opts body =
      { result := (fetchGo env (opts.maxRetries.getD 3) (opts.validateResponse == some true)
          opts.responseSchema 0 (opts.maxRetries.getD 3 + 1)).result
        attempts := (fetchGo env (opts.maxRetries.getD 3) (opts.validateResponse == some true)
          opts.responseSchema 0 (opts.maxRetries.getD 3 + 1)).attempts
        delays := (fetchGo env (opts.maxRetries.getD 3) (opts.validateResponse == some true)
          opts.responseSchema 0 (opts.maxRetries.getD 3 + 1)).delays
        reqValidated := rv
        respValidated := (fetchGo env (opts.maxRetries.getD 3) (opts.validateResponse == some true)
          opts.responseSchema 0 (opts.maxRetries.getD 3 + 1)).respValidated } := by
  simp only [vintraceFetch, DEFAULT_OPTIONS]
  by_cases hv : (opts.validateRequest == some true) = true
  · rw [if_pos hv]
    simp only [preflightRejects, hv, Bool.true_and] at hpre
    cases hs : opts.requestSchema with
    | none => exact ⟨false, rfl⟩
    | some sch =>
      cases hb : body with
      | none => exact ⟨false, rfl⟩
      | some b =>
        rw [hs, hb] at hpre
        cases hsb : sch b with
        | error msg => exfalso; simp [hsb] at hpre
        | ok b' => exact ⟨true, by simp [hsb]⟩
  · rw [if_neg hv]
    exact ⟨false, rfl⟩

/-- Unpack membership in the retryable status set. -/
lemma mem_retryable_set_cases {st : Nat}
    (h : st ∈ ([408, 429, 500, 502, 503, 504] : List Nat)) :
    st = 408 ∨ st = 429 ∨ st = 500 ∨ st = 502 ∨ st = 503 ∨ st = 504 := by
  simpa using h

/-- Unpack membership in the retryable 5xx set. -/
lemma mem_5xx_cases {st : Nat} (h : st ∈ ([500, 502, 503, 504] : List Nat)) :
    st = 500 ∨ st = 502 ∨ st = 503 ∨ st = 504 := by
  simpa using h

/-- The retryable 5xx statuses are retryable statuses. -/
lemma mem_retryable_of_mem_5xx {st : Nat} (h : st ∈ ([500, 502, 503, 504] : List Nat)) :
    st ∈ ([408, 429, 500, 502, 503, 504] : List Nat) := by
  rcases mem_5xx_cases h with rfl | rfl | rfl | rfl <;> decide

/-- Classification of a retryable 5xx status is the `VintraceServerError`. -/
lemma classifyStatus_of_5xx {st : Nat} (h : st ∈ ([500, 502, 503, 504] : List Nat))
    (ra : Option Int) :
    classifyStatus st ra = ⟨"VintraceServerError", "Server error", st, none⟩ := by
  rcases mem_5xx_cases h with rfl | rfl | rfl | rfl <;> rfl

/-- If every attempt from `a` up to `maxRetries` receives a response with a
retryable status (408/429/5xx-retryable), the loop retries until the budget
is exhausted: it performs exactly `maxRetries + 1 - a` attempts and returns
the error classified from the **final** attempt's status and `retry-after`
header. -/
lemma fetchGo_all_retryable (env : Nat → AttemptOutcome α) (mr : Nat) (v : Bool)
    (sch : Option (α → Except String α)) (sts : Nat → Nat) (hdr : Nat → Option String)
    (d : Nat → α) :
    ∀ n a, mr - a = n → a ≤ mr →
      (∀ i, a ≤ i → i ≤ mr → env i = .response (sts i) (hdr i) (d i)) →
      (∀ i, a ≤ i → i ≤ mr → sts i ∈ ([408, 429, 500, 502, 503, 504] : List Nat)) →
      (fetchGo env mr v sch a (mr + 1 - a)).result =
          .err (classifyStatus (sts mr) (getRetryAfterFromHeaders (hdr mr))) ∧
        (fetchGo env mr v sch a (mr + 1 - a)).attempts = mr + 1 - a ∧
        (fetchGo env mr v sch a (mr + 1 - a)).respValidated = false := by
  intro n
  induction n with
  | zero =>
    intro a hn ha henv hst
    have haeq : a = mr := by omega
    subst haeq
    have hfuel : a + 1 - a = 1 := by omega
    rw [hfuel]
    rcases mem_retryable_set_cases (hst a le_rfl le_rfl) with h | h | h | h | h | h <;>
      simp [fetchGo, henv a le_rfl le_rfl, h, classifyStatus, isRetryableStatus,
        Nat.lt_irrefl]
  | succ n ih =>
    intro a hn ha henv hst
    have ha' : a < mr := by omega
    have hfuel : mr + 1 - a = (mr + 1 - (a + 1)) + 1 := by omega
    rw [hfuel]
    obtain ⟨hres, hatt, hrv⟩ := ih (a + 1) (by omega) (by omega)
      (fun i h1 h2 => henv i (by omega) h2) (fun i h1 h2 => hst i (by omega) h2)
    have hfuel2 : mr + 1 - (a + 1) = mr - a := by omega
    rw [hfuel2] at hres hatt hrv
    rcases mem_retryable_set_cases (hst a le_rfl ha'.le) with h | h | h | h | h | h <;>
      simp [fetchGo, henv a le_rfl ha'.le, h, classifyStatus, isRetryableStatus, ha',
        hres, hatt, hrv]

/-- C1: when every attempt receives a response with status in
{500, 502, 503, 504} and `maxRetries = R`, the executor performs exactly
`R + 1` network attempts and returns `[null, VintraceServerError]` classified
from the final attempt's status. -/
theorem server_error_retry_exhaustion (env : Nat → AttemptOutcome α)
    (opts : RequestOptions β α) (body : Option β) (R : Nat) (sts : Nat → Nat)
    (hdr : Nat → Option String) (d : Nat → α)
    (hmr : opts.maxRetries = some R)
    (hpre : preflightRejects opts body = false)
    (henv : ∀ i, i ≤ R → env i = .response (sts i) (hdr i) (d i))
    (hst : ∀ i, i ≤ R → sts i ∈ ([500, 502, 503, 504] : List Nat)) :
    (vintraceFetch env opts body).attempts = R + 1 ∧
      (vintraceFetch env opts body).result =
        .err ⟨"VintraceServerError", "Server error", sts R, none⟩ := by
  obtain ⟨rv, hfe⟩ := vintraceFetch_eq_go env opts body hpre
  rw [hfe, hmr]
  obtain ⟨hres, hatt, _⟩ := fetchGo_all_retryable env R (opts.validateResponse == some true)
    opts.responseSchema sts hdr d R 0 (by omega) (by omega)
    (fun i _ h2 => henv i h2) (fun i _ h2 => mem_retryable_of_mem_5xx (hst i h2))
  simp only [Nat.sub_zero] at hres hatt
  rw [classifyStatus_of_5xx (hst R le_rfl)] at hres
  simp only [Option.getD_some]
  exact ⟨hatt, hres⟩

/-- C1 witness: `maxRetries = 0` and a single 500 response give exactly one
attempt and a `(null, ServerError)` result. -/
theorem server_error_retry_exhaustion_witness :
    (vintraceFetch (fun _ => AttemptOutcome.response 500 none ())
          ({ maxRetries := some 0 } : RequestOptions Unit Unit) none).attempts = 1 ∧
      (vintraceFetch (fun _ => AttemptOutcome.response 500 none ())
          ({ maxRetries := some 0 } : RequestOptions Unit Unit) none).result =
        .err ⟨"VintraceServerError", "Server error", 500, none⟩ :=
  server_error_retry_exhaustion _ _ _ 0 (fun _ => 500) (fun _ => none) (fun _ => ())
    rfl (by decide) (fun _ _ => rfl)
    (fun _ _ => by show (500 : Nat) ∈ ([500, 502, 503, 504] : List Nat); decide)

/-- C2: a 401 response on the first attempt returns
`[null, VintraceAuthenticationError]` after exactly one network attempt, for
every configured `maxRetries`. -/
theorem auth_error_single_attempt (env : Nat → AttemptOutcome α)
    (opts : RequestOptions β α) (body : Option β) (hdr0 : Option String) (d0 : α)
    (hpre : preflightRejects opts body = false)
    (henv : env 0 = .response 401 hdr0 d0) :
    (vintraceFetch env opts body).attempts = 1 ∧
      (vintraceFetch env opts body).result =
        .err ⟨"VintraceAuthenticationError", "Authentication failed", 401, none⟩ := by
  obtain ⟨rv, hfe⟩ := vintraceFetch_eq_go env opts body hpre
  rw [hfe]
  constructor <;> simp [fetchGo, henv, classifyStatus]

/-- C2 witness: a constant-401 environment with default options (maxRetries
3) makes exactly one attempt and returns the authentication error. -/
theorem auth_error_single_attempt_witness :
    (vintraceFetch (fun _ => AttemptOutcome.response 401 none ())
          ({} : RequestOptions Unit Unit) none).attempts = 1 ∧
      (vintraceFetch (fun _ => AttemptOutcome.response 401 none ())
          ({} : RequestOptions Unit Unit) none).result =
        .err ⟨"VintraceAuthenticationError", "Authentication failed", 401, none⟩ :=
  auth_error_single_attempt _ _ _ none () (by decide) rfl

/-- C8 (amended): the `VintraceRateLimitError` returned after a run of 429
responses carries exactly the parsed `retry-after` header of the final
attempt — `some n` when the header parses to the integer `n`, and **absent**
when the server supplies none or an unparseable value; no fallback delay is
stored on the error (the exponential fallback only determines the wait
duration). -/
theorem rate_limit_error_mirrors_header (env : Nat → AttemptOutcome α)
    (opts : RequestOptions β α) (body : Option β) (R : Nat)
    (hdr : Nat → Option String) (d : Nat → α)
    (hmr : opts.maxRetries = some R)
    (hpre : preflightRejects opts body = false)
    (henv : ∀ i, i ≤ R → env i = .response 429 (hdr i) (d i)) :
    (vintraceFetch env opts body).result =
      .err ⟨"VintraceRateLimitError", "Rate limit exceeded", 429,
        getRetryAfterFromHeaders (hdr R)⟩ := by
  obtain ⟨rv, hfe⟩ := vintraceFetch_eq_go env opts body hpre
  rw [hfe, hmr]
  obtain ⟨hres, _, _⟩ := fetchGo_all_retryable env R (opts.validateResponse == some true)
    opts.responseSchema (fun _ => 429) hdr d R 0 (by omega) (by omega)
    (fun i _ h2 => henv i h2)
    (fun i _ _ => by show (429 : Nat) ∈ ([408, 429, 500, 502, 503, 504] : List Nat); decide)
  simp only [Nat.sub_zero] at hres
  simp only [Option.getD_some]
  rw [hres]
  rfl

/-- C8 witness: a `retry-after: 7` header on the final 429 yields a rate
limit error carrying `retryAfter = some 7`. -/
theorem rate_limit_error_mirrors_header_witness :
    (vintraceFetch (fun _ => AttemptOutcome.response 429 (some "7") ())
          ({ maxRetries := some 0 } : RequestOptions Unit Unit) none).result =
      .err ⟨"VintraceRateLimitError", "Rate limit exceeded", 429, some 7⟩ :=
  rate_limit_error_mirrors_header _ _ _ 0 (fun _ => some "7") (fun _ => ())
    rfl (by decide) (fun _ _ => rfl)

/-- With no response schema, the retry loop never runs the
response-validation adapter. -/
lemma fetchGo_none_respValidated (env : Nat → AttemptOutcome α) (mr : Nat) (v : Bool) :
    ∀ fuel a, (fetchGo env mr v none a fuel).respValidated = false := by
  intro fuel
  induction fuel with
  | zero => intro a; rfl
  | succ f ih =>
    intro a
    cases henv : env a with
    | response st hdr data =>
      simp only [fetchGo, henv]
      by_cases h1 : 200 ≤ st ∧ st ≤ 299
      · rw [if_pos h1]
        by_cases h2 : st = 204
        · rw [if_pos h2]
        · rw [if_neg h2]
      · rw [if_neg h1]
        by_cases hb1 : (classifyStatus st (getRetryAfterFromHeaders hdr)).name =
            "VintraceRateLimitError" ∧ a < mr
        · rw [if_pos hb1]
          exact ih (a + 1)
        · rw [if_neg hb1]
          by_cases hb2 : (classifyStatus st (getRetryAfterFromHeaders hdr)).name =
              "VintraceAuthenticationError"
          · rw [if_pos hb2]
          · rw [if_neg hb2]
            by_cases hb3 : isRetryableStatus
                (classifyStatus st (getRetryAfterFromHeaders hdr)).status = true ∧ a < mr
            · rw [if_pos hb3]
              exact ih (a + 1)
            · rw [if_neg hb3]
    | abortError =>
      simp only [fetchGo, henv]
      by_cases h : a < mr
      · rw [if_pos h]
        exact ih (a + 1)
      · rw [if_neg h]
    | otherError msg => simp [fetchGo, henv]

/-- C10: `VintraceClient.request` forwards neither the `requestSchema` nor
the `responseSchema` of the supplied options to `vintraceFetch`, so no
request-body or response-body schema validation is ever performed on calls
issued through it — for every client option set (including
`validateRequests/validateResponses = true`) and every supplied schema. -/
theorem client_request_never_validates (c : ClientOptions) (o : RequestOptions β α)
    (env : Nat → AttemptOutcome α) (body : Option β) :
    (forwardOptions c o).requestSchema = none ∧
      (forwardOptions c o).responseSchema = none ∧
      (clientRequest c o env body).reqValidated = false ∧
      (clientRequest c o env body).respValidated = false := by
  refine ⟨rfl, rfl, ?_, ?_⟩ <;>
      simp only [clientRequest, vintraceFetch, forwardOptions] <;>
      by_cases hv : ((some (o.validateRequest.getD c.validateRequests) : Option Bool) ==
        some true) = true
  · rw [if_pos hv]
  · rw [if_neg hv]
  · rw [if_pos hv]
    exact fetchGo_none_respValidated env _ _ _ 0
  · rw [if_neg hv]
    exact fetchGo_none_respValidated env _ _ _ 0

/-- The settle fold splits into the data and error projections. -/
lemma foldl_settleStep (rs : List (SettledResult α)) :
    ∀ (as : List α) (es : List VError),
      rs.foldl settleStep (as, es) = (as ++ settledData rs, es ++ settledErrors rs) := by
  induction rs with
  | nil => intro as es; simp [settledData, settledErrors]
  | cons r rest ih =>
    intro as es
    cases r with
    | fulfilled val =>
      cases val with
      | ok d => simp [settleStep, settledData, settledErrors, List.filterMap_cons, ih]
      | err e => simp [settleStep, settledData, settledErrors, List.filterMap_cons, ih]
      | empty => simp [settleStep, settledData, settledErrors, List.filterMap_cons, ih]
    | rejected msg => simp [settleStep, settledData, settledErrors, List.filterMap_cons, ih]

/-- `batchFetch` in terms of the projections. -/
lemma batchFetch_eq (ids : List ι) (f : ι → SettledResult α) :
    batchFetch ids f =
      if (settledErrors (ids.map f)).length > 0 then
        BatchOut.aggregate (mkAggregateError (settledErrors (ids.map f)))
      else .ok (settledData (ids.map f)) := by
  simp [batchFetch, foldl_settleStep]

/-- Folding chunk-by-chunk equals folding over the flattened chunks. -/
lemma foldl_chunks (f : ι → SettledResult α) (L : List (List ι)) :
    ∀ init, L.foldl (fun acc chunk => (chunk.map f).foldl settleStep acc) init =
      ((L.flatten.map f).foldl settleStep init) := by
  induction L with
  | nil => intro init; rfl
  | cons chunk rest ih =>
    intro init
    simp [List.flatten_cons, List.map_append, List.foldl_append, ih]

/-- With a positive chunk size, `batchGet` and `batchFetch` aggregate
identically (settled order is preserved by `Promise.allSettled` and chunks
are scanned in order). -/
lemma batchGet_eq_batchFetch (ids : List ι) (f : ι → SettledResult α) (c : Nat)
    (hc : 0 < c) : batchGet ids f (some c) = batchFetch ids f := by
  simp only [batchGet, batchFetch, Option.getD_some, foldl_chunks,
    chunkList_join c hc]

/-- C6: whenever at least one fetch contributes an error (an error result or
a converted rejection), both batch combinators return
`[null, VintraceAggregateError(errorList)]` — discarding every
individually-successful item — and when no fetch errors they return
`[outputList, null]` holding every success datum, `[null, null]` outcomes
contributing to neither list. -/
theorem batch_aggregate_errors_or_all_data (ids : List ι) (f : ι → SettledResult α)
    (c : Nat) (hc : 0 < c) :
    (settledErrors (ids.map f) ≠ [] →
        batchFetch ids f = .aggregate (mkAggregateError (settledErrors (ids.map f))) ∧
          batchGet ids f (some c) =
            .aggregate (mkAggregateError (settledErrors (ids.map f)))) ∧
      (settledErrors (ids.map f) = [] →
        batchFetch ids f = .ok (settledData (ids.map f)) ∧
          batchGet ids f (some c) = .ok (settledData (ids.map f))) := by
  constructor
  · intro hne
    have hlen : (settledErrors (ids.map f)).length > 0 := List.length_pos.mpr hne
    rw [batchGet_eq_batchFetch ids f c hc, batchFetch_eq, if_pos hlen]
    exact ⟨rfl, rfl⟩
  · intro he
    have hlen : ¬ (settledErrors (ids.map f)).length > 0 := by simp [he]
    rw [batchGet_eq_batchFetch ids f c hc, batchFetch_eq, if_neg hlen]
    exact ⟨rfl, rfl⟩

/-- C6 witness: the spec's example — two keys, one success and one NotFound
error — yields `(null, AggregateError([NotFoundError]))` with the successful
item discarded; and the same two fetches without the failure yield both
items. -/
theorem batch_aggregate_errors_or_all_data_witness :
    batchFetch ["1", "2"]
        (fun id => if id = "1" then .fulfilled (.ok 10)
          else .fulfilled (.err ⟨"VintraceNotFoundError", "Resource not found", 404, none⟩)) =
      .aggregate ⟨"VintraceAggregateError", "Resource not found", 404,
        [⟨"VintraceNotFoundError", "Resource not found", 404, none⟩]⟩ ∧
      batchFetch ["1", "2"] (fun id => if id = "1" then .fulfilled (.ok 10)
          else .fulfilled (.ok 20)) = .ok [10, 20] := by
  constructor
  · exact (((batch_aggregate_errors_or_all_data ["1", "2"]
      (fun id => if id = "1" then .fulfilled (.ok 10)
        else .fulfilled (.err ⟨"VintraceNotFoundError", "Resource not found", 404, none⟩))
      5 (by decide)).1 (by decide)).1).trans (by decide)
  · exact (((batch_aggregate_errors_or_all_data ["1", "2"]
      (fun id => if id = "1" then .fulfilled (.ok 10)
        else .fulfilled (.ok 20)) 5 (by decide)).2 (by decide)).1).trans (by decide)

/-- Scanning a batch of pages that are all `ok` with present item arrays
appends their items in order. -/
lemma processBatch_map_ok (pageAt : Nat → VResult (SearchPage α)) (limit : Nat)
    (items : Nat → List α) :
    ∀ (ks : List Nat) (acc : List α),
      (∀ k ∈ ks, ∃ pg, pageAt (k * limit) = .ok pg ∧ pg.items = some (items k)) →
      processBatch (ks.map (fun k => pageAt (k * limit))) acc =
        .ok (acc ++ (ks.map items).flatten) := by
  intro ks
  induction ks with
  | nil => intro acc h; simp [processBatch]
  | cons k rest ih =>
    intro acc h
    obtain ⟨pg, hpg, hitems⟩ := h k (by simp)
    simp only [List.map_cons, processBatch, hpg, hitems]
    rw [ih _ (fun k hk => h k (by simp [hk]))]
    simp [hitems]

/-- The fan-out loop over all-`ok` pages returns the accumulated items
followed by the items of pages `i, …, pagesNeeded - 1` in ascending order,
having issued one call per remaining page. -/
lemma getAllLoop_all_ok (pageAt : Nat → VResult (SearchPage α)) (limit pagesNeeded p : Nat)
    (hp : 0 < p) (items : Nat → List α)
    (hk : ∀ k, 1 ≤ k → k < pagesNeeded →
      ∃ pg, pageAt (k * limit) = .ok pg ∧ pg.items = some (items k)) :
    ∀ fuel i acc calls, 1 ≤ i → pagesNeeded - i ≤ fuel →
      getAllLoop pageAt limit pagesNeeded p fuel i acc calls =
        ⟨.ok (acc ++ ((List.range' i (pagesNeeded - i)).map items).flatten),
          calls + (pagesNeeded - i)⟩ := by
  intro fuel
  induction fuel with
  | zero =>
    intro i acc calls hi hle
    have h0 : pagesNeeded - i = 0 := by omega
    rw [h0]
    simp [getAllLoop]
  | succ f ih =>
    intro i acc calls hi hle
    by_cases hlt : i < pagesNeeded
    · rw [getAllLoop, if_pos ⟨hlt, hp⟩]
      dsimp only
      have hbatch : (List.range (min p (pagesNeeded - i))).map
            (fun j => pageAt ((i + j) * limit)) =
          (List.range' i (min p (pagesNeeded - i))).map (fun k => pageAt (k * limit)) := by
        rw [List.range'_eq_map_range]
        rw [List.map_map]
        rfl
      rw [hbatch, processBatch_map_ok pageAt limit items _ _ ?hks]
      case hks =>
        intro k hk2
        rw [List.mem_range'_1] at hk2
        exact hk k (by omega) (by omega)
      dsimp only
      rw [ih (i + p) _ _ (by omega) (by omega)]
      have hranges : List.range' i (min p (pagesNeeded - i)) ++
          List.range' (i + min p (pagesNeeded - i)) (pagesNeeded - (i + p)) =
          List.range' i (pagesNeeded - i) := by
        rw [List.range'_append_1]
        congr 1
        omega
      have hstart : List.range' (i + min p (pagesNeeded - i)) (pagesNeeded - (i + p)) =
          List.range' (i + p) (pagesNeeded - (i + p)) := by
        rcases Nat.le_total p (pagesNeeded - i) with hcase | hcase
        · rw [Nat.min_eq_left hcase]
        · have hz : pagesNeeded - (i + p) = 0 := by omega
          rw [hz]
          rfl
      rw [hstart] at hranges
      simp only [PagedOut.mk.injEq]
      constructor
      · rw [← hranges]
        simp [List.append_assoc]
      · omega
    · have h0 : pagesNeeded - i = 0 := by omega
      rw [getAllLoop, if_neg (by omega)]
      rw [h0]
      simp

/-- C5: for the eager `getAll` aggregation with positive page size and
parallel limit, a first page reporting `totalCount <= limit` is returned
directly after exactly one network call; otherwise, when every needed page
succeeds, exactly `ceil(totalCount / limit)` network calls are made in total
and the result is the concatenation of all pages' items in ascending offset
order. -/
theorem eager_getAll_aggregation (pageAt : Nat → VResult (SearchPage α))
    (limit p total : Nat) (items : Nat → List α) (hl : 0 < limit) (hp : 0 < p)
    (h0 : pageAt 0 = .ok ⟨some total, some (items 0)⟩)
    (hk : ∀ k, 1 ≤ k → k < (total + limit - 1) / limit →
      ∃ pg, pageAt (k * limit) = .ok pg ∧ pg.items = some (items k)) :
    (total ≤ limit → getAll pageAt limit p = ⟨.ok (items 0), 1⟩) ∧
      (limit < total →
        getAll pageAt limit p =
          ⟨.ok (((List.range' 0 ((total + limit - 1) / limit)).map items).flatten),
            (total + limit - 1) / limit⟩) := by
  constructor
  · intro hle
    simp [getAll, h0, hle]
  · intro hgt
    have hq1 : 1 ≤ (total + limit - 1) / limit := by
      rw [Nat.le_div_iff_mul_le hl]
      omega
    have hnotle : ¬ total ≤ limit := by omega
    simp only [getAll, h0, Option.getD_some]
    rw [if_neg hnotle]
    rw [getAllLoop_all_ok pageAt limit ((total + limit - 1) / limit) p hp items hk
      ((total + limit - 1) / limit) 1 (items 0) 1 le_rfl (by omega)]
    have hsplit : List.range' 0 ((total + limit - 1) / limit) =
        List.range' 0 1 ++ List.range' 1 ((total + limit - 1) / limit - 1) := by
      rw [List.range'_append_1]
      congr 1
      omega
    rw [hsplit]
    simp only [PagedOut.mk.injEq]
    constructor
    · simp
    · omega

/-- C5 witness: the spec's two scenarios — `totalCount = 3`, page size 2
gives `[1, 2, 3]` in 2 calls; `totalCount = 2`, page size 100 gives the
first page directly in 1 call. -/
theorem eager_getAll_aggregation_witness :
    getAll (fun off => if off = 0 then .ok ⟨some 3, some [1, 2]⟩
        else if off = 2 then .ok ⟨some 3, some [3]⟩ else .err ⟨"VintraceError", "x", 0, none⟩)
      2 5 = ⟨.ok [1, 2, 3], 2⟩ ∧
      getAll (fun off => if off = 0 then .ok ⟨some 2, some [1, 2]⟩
          else .err ⟨"VintraceError", "x", 0, none⟩) 100 5 = ⟨.ok [1, 2], 1⟩ := by
  constructor
  · exact ((eager_getAll_aggregation
      (fun off => if off = 0 then .ok ⟨some 3, some [1, 2]⟩
        else if off = 2 then .ok ⟨some 3, some [3]⟩ else .err ⟨"VintraceError", "x", 0, none⟩)
      2 5 3 (fun k => if k = 0 then [1, 2] else if k = 1 then [3] else [])
      (by decide) (by decide) rfl
      (fun k h1 h2 => ⟨⟨some 3, some [3]⟩, by interval_cases k <;> first | rfl | omega,
        by interval_cases k <;> rfl⟩)).2 (by decide)).trans (by decide)
  · exact ((eager_getAll_aggregation
      (fun off => if off = 0 then .ok ⟨some 2, some [1, 2]⟩
        else .err ⟨"VintraceError", "x", 0, none⟩)
      100 5 2 (fun k => if k = 0 then [1, 2] else [])
      (by decide) (by decide) rfl
      (fun k h1 h2 => absurd h2 (by interval_cases k <;> decide))).1 (by decide)).trans
      (by decide)

end Vintrace
